import Mathlib

/-!
Verification development for the worker pool in `src/v3/worker.rs` of the
penrose repository: the `Message` protocol, the `Worker` receive loop, `Pool`
construction (`Pool::new`), submission (`Pool::exec`) and teardown
(`impl Drop for Pool`), shallowly embedded in Lean.

Modelling conventions:
* Opaque Rust values are modelled as `Nat` tokens: `KeyCode`, `WmHandle`,
  the payload of an `Err` (the error type), the identity of a queue created
  by `crossbeam_channel::unbounded()`, the identity of a boxed job closure,
  and the identity of the `ErrorHandler` callback.
* A worker thread's interaction with the shared queue is modelled by the
  finite list of messages that this worker's successive `rx.recv()` calls
  return, the end of the list standing for `recv` returning `Err`
  (the channel is disconnected and empty).
* Effects are made observable by returning them: the receive loop returns the
  list of messages it consumed, the list of error values passed to
  `error_handler`, and the reason its loop exited.
-/

/-- Rust `KeyCode` (opaque to the pool), modelled as a token. -/
abbrev KeyCode : Type := Nat

/-- Rust `WmHandle` (opaque, cheaply cloned), modelled as a token. -/
abbrev WmHandle : Type := Nat

/-- The error type produced by bound actions, modelled as a token. -/
abbrev PenroseError : Type := Nat

/-- Identity of the `ErrorHandler` callback (it is `Copy` in the source);
invocations of it are observed through the `handled` list of `LoopResult`. -/
abbrev ErrorHandler : Type := Nat

/-- A mouse event as used by the worker loop: the lookup key is the pair
`(e.kind, e.state.clone())` and the whole event is passed to the action. -/
structure MouseEvent where
  kind : Nat
  state : Nat
deriving DecidableEq, Repr

/-- A key-bound action: `action(h.clone())` returns `Result<(), _>`. -/
abbrev KeyAction : Type := WmHandle → Except PenroseError Unit

/-- A mouse-bound action: `action(h.clone(), &e)` returns `Result<(), _>`. -/
abbrev MouseAction : Type := WmHandle → MouseEvent → Except PenroseError Unit

/-- `KeyBindings`: `ks.get_mut(&k)` yields the bound action, if any. -/
abbrev KeyBindings : Type := KeyCode → Option KeyAction

/-- `MouseBindings`: `ms.get_mut(&(e.kind, e.state.clone()))` yields the
bound action, if any. -/
abbrev MouseBindings : Type := Nat × Nat → Option MouseAction

/-- The `Message` enum exactly as DECLARED in `src/v3/worker.rs` (lines
12-16): `Key(KeyCode)`, `Mouse(MouseEvent)`, `ShutDown`.  Note that the
declaration has no `Job` variant even though `Pool::exec` constructs
`Message::Job(Box::new(f))`; see `SentMessage` for the producer side. -/
inductive Message where
  | Key : KeyCode → Message
  | Mouse : MouseEvent → Message
  | ShutDown : Message
deriving DecidableEq, Repr

/-- Why the worker's `while let Ok(m) = rx.recv()` loop stopped: either
`recv` returned `Err` (queue disconnected and empty), or the worker matched
`Message::ShutDown` and executed its `return`. -/
inductive ExitReason where
  | channelClosed : ExitReason
  | shutDownMsg : ExitReason
deriving DecidableEq, Repr

/-- Observable outcome of one worker's entire receive loop. -/
structure LoopResult where
  /-- the messages this worker received, in order -/
  consumed : List Message
  /-- the error values passed to `error_handler`, in order -/
  handled : List PenroseError
  /-- invocations of deferred `Job` callables.  The spec requires the loop
  to invoke such callables (its step 5); the loop in the source has no arm
  that does so (and the declared `Message` has no `Job` variant), so no
  branch of `workerLoop` ever records one. -/
  jobs : List Nat
  /-- why the loop stopped -/
  exit : ExitReason

/-- The `Message::Key(k)` arm of the loop body: look up `k`, invoke the
action with the handle if bound, and pass any `Err` to `error_handler`.
Returns the list of errors handed to the error handler by this arm. -/
def keyDispatch (ks : KeyBindings) (h : WmHandle) (k : KeyCode) :
    List PenroseError :=
  match ks k with
  | some action =>
    match action h with
    | .error e => [e]
    | .ok _ => []
  | none => []

/-- The `Message::Mouse(e)` arm of the loop body: look up
`(e.kind, e.state)`, invoke the action with the handle and the event if
bound, and pass any `Err` to `error_handler`. -/
def mouseDispatch (ms : MouseBindings) (h : WmHandle) (e : MouseEvent) :
    List PenroseError :=
  match ms (e.kind, e.state) with
  | some action =>
    match action h e with
    | .error err => [err]
    | .ok _ => []
  | none => []

/-- The body of the thread spawned by `Worker::new`:
`while let Ok(m) = rx.recv() { match m { ... } }`.  The argument list holds
the messages successive `recv` calls return; its end models `recv`
returning `Err`.  The `ShutDown` arm executes `return`, so the remainder of
the list is never consumed. -/
def workerLoop (ks : KeyBindings) (ms : MouseBindings) (h : WmHandle) :
    List Message → LoopResult
  | [] => ⟨[], [], [], .channelClosed⟩
  | .Key k :: rest =>
    let r := workerLoop ks ms h rest
    ⟨.Key k :: r.consumed, keyDispatch ks h k ++ r.handled, r.jobs, r.exit⟩
  | .Mouse e :: rest =>
    let r := workerLoop ks ms h rest
    ⟨.Mouse e :: r.consumed, mouseDispatch ms h e ++ r.handled, r.jobs, r.exit⟩
  | .ShutDown :: _ => ⟨[.ShutDown], [], [], .shutDownMsg⟩

/-- Messages as CONSTRUCTED at the module's two send sites: `Pool::exec`
sends `Message::Job(Box::new(f))` — a variant the declared `Message` enum
does not have — and `Pool`'s `Drop` sends `Message::ShutDown`.  The `Nat`
in `Job` is the identity of the boxed closure. -/
inductive SentMessage where
  | Job : Nat → SentMessage
  | ShutDown : SentMessage
deriving DecidableEq, Repr

/-- The `Worker` struct stores its `id` and the `JoinHandle` of the thread
spawned by `Worker::new`; the remaining fields model the state moved into
that thread's closure (the cloned receiver, cloned handle, cloned binding
tables, and the error handler). -/
structure Worker where
  id : Nat
  rx : Nat
  h : WmHandle
  ks : KeyBindings
  ms : MouseBindings
  eh : ErrorHandler

/-- `Worker::new(id, rx, h, ks, ms, error_handler)`: spawns the receive
loop (whose behaviour is `workerLoop`) and returns `Self { id, handle }`. -/
def Worker.new (id : Nat) (rx : Nat) (h : WmHandle) (ks : KeyBindings)
    (ms : MouseBindings) (eh : ErrorHandler) : Worker :=
  ⟨id, rx, h, ks, ms, eh⟩

/-- The `Pool` struct: the owned workers and the sending half `tx` of the
shared queue (`tx` is the identity of the queue created by `unbounded()`). -/
structure Pool where
  workers : List Worker
  tx : Nat

/-- `Pool::new(size, h, ks, ms, error_handler)`: `assert!(size > 0)` (a
panic, modelled as `none`), then one `unbounded()` queue (identity `0`),
then one `Worker::new` per id in `0..size`, each worker cloning the
receiver, handle, and binding tables. -/
def Pool.new (size : Nat) (h : WmHandle) (ks : KeyBindings)
    (ms : MouseBindings) (eh : ErrorHandler) : Option Pool :=
  if size > 0 then
    some ⟨(List.range size).map (fun id => Worker.new id 0 h ks ms eh), 0⟩
  else
    none

/-- Outcome of `Pool::exec`: either a message was enqueued on the shared
queue, or the `unwrap()` panicked. -/
inductive ExecResult where
  | sent : SentMessage → ExecResult
  | panicked : ExecResult
deriving DecidableEq, Repr

/-- `Pool::exec(f)`: `self.tx.send(Message::Job(Box::new(f))).unwrap()`.
`crossbeam_channel::Sender::send` fails exactly when the channel is
disconnected (every receiver has been dropped, i.e. the pool is mid- or
post-teardown); `queueClosed` models that condition, and `unwrap()` on the
failure is a panic.  `f` is the identity of the submitted closure. -/
def Pool.exec (_p : Pool) (queueClosed : Bool) (f : Nat) : ExecResult :=
  if queueClosed then .panicked else .sent (.Job f)

/-- How `Drop::drop` for `Pool` finished: every send and join succeeded, or
one of the `unwrap()` calls panicked, abandoning the rest of teardown. -/
inductive DropResult where
  | completed : DropResult
  | panicked : DropResult
deriving DecidableEq, Repr

/-- Observable effects of `Drop::drop` for `Pool`. -/
structure DropTrace where
  /-- the messages enqueued on the shared queue, in order -/
  sent : List SentMessage
  /-- ids of the workers whose threads were joined, in order -/
  joined : List Nat
  /-- whether drop ran to completion or panicked part-way -/
  result : DropResult
deriving DecidableEq, Repr

/-- The first loop of `Drop::drop`:
`for _ in &self.workers { self.tx.send(Message::ShutDown).unwrap(); }`.
`sendOk i` is the environment's verdict on the i-th send (`false` models
`send` returning `Err` because the channel is disconnected); the `unwrap()`
on a failed send panics, ending the loop early.  Returns the messages
actually enqueued and whether all `n` sends succeeded. -/
def sendShutDowns (sendOk : Nat → Bool) : Nat → Nat → List SentMessage × Bool
  | _, 0 => ([], true)
  | i, n + 1 =>
    if sendOk i then
      let r := sendShutDowns sendOk (i + 1) n
      (.ShutDown :: r.1, r.2)
    else
      ([], false)

/-- The second loop of `Drop::drop`:
`for w in self.workers.drain(0..) { w.handle.join().unwrap(); }`.
`joinOk w` is `false` when worker `w`'s thread has panicked, so that
`join()` returns `Err` and the `unwrap()` panics, ending the loop early.
Returns the ids joined successfully and whether all joins succeeded. -/
def joinWorkers (joinOk : Nat → Bool) : List Nat → List Nat × Bool
  | [] => ([], true)
  | w :: ws =>
    if joinOk w then
      let r := joinWorkers joinOk ws
      (w :: r.1, r.2)
    else
      ([], false)

/-- `impl Drop for Pool`: send one `ShutDown` per currently-owned worker
(unwrapping each send), then join every worker's thread in order
(unwrapping each join).  A panic in the send loop skips the join loop
entirely; a panic in the join loop abandons the remaining joins. -/
def dropPool (sendOk : Nat → Bool) (joinOk : Nat → Bool) (p : Pool) :
    DropTrace :=
  let s := sendShutDowns sendOk 0 p.workers.length
  if s.2 then
    let j := joinWorkers joinOk (p.workers.map Worker.id)
    ⟨s.1, j.1, if j.2 then .completed else .panicked⟩
  else
    ⟨s.1, [], .panicked⟩

/-- The public operations that can enqueue a message on the shared queue
while the `Pool` is alive.  `Message` is private to the module, so outside
code cannot construct one; `Pool::exec` is the only public method that
sends, and it sends a single `Job`. -/
inductive PoolOp where
  | exec : Nat → PoolOp
deriving DecidableEq, Repr

/-- The message a public API call enqueues. -/
def opMessage : PoolOp → SentMessage
  | .exec f => .Job f

/-- All messages enqueued by a sequence of public API calls made before
teardown begins. -/
def traceMessages (ops : List PoolOp) : List SentMessage :=
  ops.map opMessage

/-- Any message other than `ShutDown` leaves the loop running: the `Key`
and `Mouse` arms fall through to the next `recv`. -/
theorem workerLoop_cons_key (ks : KeyBindings) (ms : MouseBindings)
    (h : WmHandle) (k : KeyCode) (rest : List Message) :
    workerLoop ks ms h (Message.Key k :: rest) =
      ⟨Message.Key k :: (workerLoop ks ms h rest).consumed,
       keyDispatch ks h k ++ (workerLoop ks ms h rest).handled,
       (workerLoop ks ms h rest).jobs,
       (workerLoop ks ms h rest).exit⟩ := rfl

/-- `Mouse` analogue of `workerLoop_cons_key`. -/
theorem workerLoop_cons_mouse (ks : KeyBindings) (ms : MouseBindings)
    (h : WmHandle) (e : MouseEvent) (rest : List Message) :
    workerLoop ks ms h (Message.Mouse e :: rest) =
      ⟨Message.Mouse e :: (workerLoop ks ms h rest).consumed,
       mouseDispatch ms h e ++ (workerLoop ks ms h rest).handled,
       (workerLoop ks ms h rest).jobs,
       (workerLoop ks ms h rest).exit⟩ := rfl

/-- Claim C3: for a dequeued `Key(code)` message, a bound action is invoked
with the handle and an error it returns reaches the error handler exactly
once with the exact error value, a successful invocation reaches the
handler not at all, and an unbound code is a silent no-op; in every case
the worker goes on processing the rest of its input.  The analogous
statements hold for `Mouse(event)` messages looked up at
`(event.kind, event.state)` with the event passed to the action. -/
theorem worker_dispatch_key_mouse (ks : KeyBindings) (ms : MouseBindings)
    (h : WmHandle) (rest : List Message) :
    (∀ k, ks k = none →
      workerLoop ks ms h (Message.Key k :: rest) =
        ⟨Message.Key k :: (workerLoop ks ms h rest).consumed,
         (workerLoop ks ms h rest).handled,
         (workerLoop ks ms h rest).jobs,
         (workerLoop ks ms h rest).exit⟩) ∧
    (∀ k a, ks k = some a → a h = Except.ok () →
      workerLoop ks ms h (Message.Key k :: rest) =
        ⟨Message.Key k :: (workerLoop ks ms h rest).consumed,
         (workerLoop ks ms h rest).handled,
         (workerLoop ks ms h rest).jobs,
         (workerLoop ks ms h rest).exit⟩) ∧
    (∀ k a e, ks k = some a → a h = Except.error e →
      workerLoop ks ms h (Message.Key k :: rest) =
        ⟨Message.Key k :: (workerLoop ks ms h rest).consumed,
         e :: (workerLoop ks ms h rest).handled,
         (workerLoop ks ms h rest).jobs,
         (workerLoop ks ms h rest).exit⟩) ∧
    (∀ ev, ms (ev.kind, ev.state) = none →
      workerLoop ks ms h (Message.Mouse ev :: rest) =
        ⟨Message.Mouse ev :: (workerLoop ks ms h rest).consumed,
         (workerLoop ks ms h rest).handled,
         (workerLoop ks ms h rest).jobs,
         (workerLoop ks ms h rest).exit⟩) ∧
    (∀ ev a, ms (ev.kind, ev.state) = some a → a h ev = Except.ok () →
      workerLoop ks ms h (Message.Mouse ev :: rest) =
        ⟨Message.Mouse ev :: (workerLoop ks ms h rest).consumed,
         (workerLoop ks ms h rest).handled,
         (workerLoop ks ms h rest).jobs,
         (workerLoop ks ms h rest).exit⟩) ∧
    (∀ ev a e, ms (ev.kind, ev.state) = some a → a h ev = Except.error e →
      workerLoop ks ms h (Message.Mouse ev :: rest) =
        ⟨Message.Mouse ev :: (workerLoop ks ms h rest).consumed,
         e :: (workerLoop ks ms h rest).handled,
         (workerLoop ks ms h rest).jobs,
         (workerLoop ks ms h rest).exit⟩) := by
  refine ⟨?_, ?_, ?_, ?_, ?_, ?_⟩
  · intro k hk
    rw [workerLoop_cons_key]
    simp [keyDispatch, hk]
  · intro k a hk ha
    rw [workerLoop_cons_key]
    simp [keyDispatch, hk, ha]
  · intro k a e hk ha
    rw [workerLoop_cons_key]
    simp [keyDispatch, hk, ha]
  · intro ev hm
    rw [workerLoop_cons_mouse]
    simp [mouseDispatch, hm]
  · intro ev a hm ha
    rw [workerLoop_cons_mouse]
    simp [mouseDispatch, hm, ha]
  · intro ev a e hm ha
    rw [workerLoop_cons_mouse]
    simp [mouseDispatch, hm, ha]

/-- Witness for `worker_dispatch_key_mouse` at concrete bindings: code `5`
is bound to an action failing with error `7`, code `6` is unbound. -/
theorem worker_dispatch_key_mouse_witness :
    workerLoop
        (fun k => if k = 5 then some (fun _ => Except.error 7) else none)
        (fun _ => none) 0 [Message.Key 5] =
      ⟨[Message.Key 5], [7], [], ExitReason.channelClosed⟩ ∧
    workerLoop
        (fun k => if k = 5 then some (fun _ => Except.error 7) else none)
        (fun _ => none) 0 [Message.Key 6] =
      ⟨[Message.Key 6], [], [], ExitReason.channelClosed⟩ := by
  constructor
  · exact (worker_dispatch_key_mouse
      (fun k => if k = 5 then some (fun _ => Except.error 7) else none)
      (fun _ => none) 0 []).2.2.1 5 (fun _ => Except.error 7) 7
      (by simp) rfl
  · exact (worker_dispatch_key_mouse
      (fun k => if k = 5 then some (fun _ => Except.error 7) else none)
      (fun _ => none) 0 []).1 6 (by simp)

/-- Claim C4: the `Message` enum, as declared in the source, has exactly
the three states `Key`, `Mouse` and `ShutDown` — in particular it has no
`Job` variant, although `Pool::exec` constructs `Message::Job` and the
spec lists four variants. -/
theorem message_has_exactly_three_variants (m : Message) :
    (∃ k, m = Message.Key k) ∨ (∃ e, m = Message.Mouse e) ∨
      m = Message.ShutDown := by
  cases m with
  | Key k => exact Or.inl ⟨k, rfl⟩
  | Mouse e => exact Or.inr (Or.inl ⟨e, rfl⟩)
  | ShutDown => exact Or.inr (Or.inr rfl)

/-- Claim C4 witness: instantiating the variant enumeration at a concrete
message. -/
theorem message_has_exactly_three_variants_witness :
    (∃ k, Message.Key 3 = Message.Key k) ∨
      (∃ e, Message.Key 3 = Message.Mouse e) ∨
      Message.Key 3 = Message.ShutDown :=
  message_has_exactly_three_variants (Message.Key 3)

/-- Claim C5: the worker receive loop never invokes a deferred `Job`
callable on any input whatsoever — its `match` has no `Job` arm (and the
declared `Message` type has no `Job` variant), contradicting the spec's
step 5 and the module's own `work_gets_done` test. -/
theorem worker_loop_never_runs_jobs (ks : KeyBindings) (ms : MouseBindings)
    (h : WmHandle) (msgs : List Message) :
    (workerLoop ks ms h msgs).jobs = [] := by
  induction msgs with
  | nil => rfl
  | cons m rest ih =>
    cases m with
    | Key k => simpa [workerLoop_cons_key] using ih
    | Mouse e => simpa [workerLoop_cons_mouse] using ih
    | ShutDown => rfl

/-- Claim C7: once a worker dequeues `ShutDown`, its loop returns at once:
whatever still lies behind the `ShutDown` in this worker's input is never
consumed, and the exit reason is the `ShutDown` arm's `return`. -/
theorem shutdown_stops_consumption (ks : KeyBindings) (ms : MouseBindings)
    (h : WmHandle) (p rest : List Message) (hp : Message.ShutDown ∉ p) :
    (workerLoop ks ms h (p ++ Message.ShutDown :: rest)).consumed =
        p ++ [Message.ShutDown] ∧
      (workerLoop ks ms h (p ++ Message.ShutDown :: rest)).exit =
        ExitReason.shutDownMsg := by
  induction p with
  | nil => exact ⟨rfl, rfl⟩
  | cons m p ih =>
    have hm : m ≠ Message.ShutDown := fun he => hp (he ▸ List.mem_cons_self m p)
    have hp' : Message.ShutDown ∉ p := fun hx => hp (List.mem_cons_of_mem m hx)
    cases m with
    | Key k =>
      rw [List.cons_append, workerLoop_cons_key]
      exact ⟨by rw [List.cons_append, (ih hp').1], (ih hp').2⟩
    | Mouse e =>
      rw [List.cons_append, workerLoop_cons_mouse]
      exact ⟨by rw [List.cons_append, (ih hp').1], (ih hp').2⟩
    | ShutDown => exact absurd rfl hm

/-- Witness for `shutdown_stops_consumption`: one ordinary message before
the sentinel, one message behind it that is not consumed. -/
theorem shutdown_stops_consumption_witness :
    (workerLoop (fun _ => none) (fun _ => none) 0
          ([Message.Key 1] ++ Message.ShutDown :: [Message.Key 2])).consumed =
        [Message.Key 1] ++ [Message.ShutDown] ∧
      (workerLoop (fun _ => none) (fun _ => none) 0
          ([Message.Key 1] ++ Message.ShutDown :: [Message.Key 2])).exit =
        ExitReason.shutDownMsg :=
  shutdown_stops_consumption (fun _ => none) (fun _ => none) 0
    [Message.Key 1] [Message.Key 2] (by decide)

/-- Claim C8: if this worker's `recv` reports the queue closed with no
message retrieved (here: after a `ShutDown`-free input is exhausted), the
loop terminates via the `while let` fallthrough, having consumed exactly
the messages that were delivered. -/
theorem closed_queue_terminates_loop (ks : KeyBindings)
    (ms : MouseBindings) (h : WmHandle) (msgs : List Message)
    (hm : Message.ShutDown ∉ msgs) :
    (workerLoop ks ms h msgs).consumed = msgs ∧
      (workerLoop ks ms h msgs).exit = ExitReason.channelClosed := by
  induction msgs with
  | nil => exact ⟨rfl, rfl⟩
  | cons m rest ih =>
    have hne : m ≠ Message.ShutDown :=
      fun he => hm (he ▸ List.mem_cons_self m rest)
    have hrest : Message.ShutDown ∉ rest :=
      fun hx => hm (List.mem_cons_of_mem m hx)
    cases m with
    | Key k =>
      rw [workerLoop_cons_key]
      exact ⟨by rw [(ih hrest).1], (ih hrest).2⟩
    | Mouse e =>
      rw [workerLoop_cons_mouse]
      exact ⟨by rw [(ih hrest).1], (ih hrest).2⟩
    | ShutDown => exact absurd rfl hne

/-- Witness for `closed_queue_terminates_loop` on a two-message
`ShutDown`-free input. -/
theorem closed_queue_terminates_loop_witness :
    (workerLoop (fun _ => none) (fun _ => none) 0
          [Message.Key 2, Message.Mouse ⟨0, 0⟩]).consumed =
        [Message.Key 2, Message.Mouse ⟨0, 0⟩] ∧
      (workerLoop (fun _ => none) (fun _ => none) 0
          [Message.Key 2, Message.Mouse ⟨0, 0⟩]).exit =
        ExitReason.channelClosed :=
  closed_queue_terminates_loop (fun _ => none) (fun _ => none) 0
    [Message.Key 2, Message.Mouse ⟨0, 0⟩] (by decide)

/-- Claim C9: no sequence of public API calls enqueues a `ShutDown`
(`Pool::exec`, the sole public submission entry point, sends only `Job`
messages, and `Message` is private to the module), and a worker exits
through the `ShutDown` arm only if a `ShutDown` was actually in its input —
so before teardown no worker terminates via that arm. -/
theorem only_teardown_enqueues_shutdown :
    (∀ ops : List PoolOp, SentMessage.ShutDown ∉ traceMessages ops) ∧
      (∀ (ks : KeyBindings) (ms : MouseBindings) (h : WmHandle)
          (msgs : List Message),
        (workerLoop ks ms h msgs).exit = ExitReason.shutDownMsg →
          Message.ShutDown ∈ msgs) := by
  constructor
  · intro ops hmem
    obtain ⟨op, _, heq⟩ := List.mem_map.1 hmem
    cases op with
    | exec f => simp [opMessage] at heq
  · intro ks ms h msgs
    induction msgs with
    | nil => intro hx; simp [workerLoop] at hx
    | cons m rest ih =>
      cases m with
      | Key k =>
        rw [workerLoop_cons_key]
        intro hx
        exact List.mem_cons_of_mem _ (ih hx)
      | Mouse e =>
        rw [workerLoop_cons_mouse]
        intro hx
        exact List.mem_cons_of_mem _ (ih hx)
      | ShutDown => intro _; exact List.mem_cons_self _ _

/-- Witness for `only_teardown_enqueues_shutdown`: a concrete submission
trace contains no `ShutDown`, and a worker that did exit through the
`ShutDown` arm had a `ShutDown` in its input. -/
theorem only_teardown_enqueues_shutdown_witness :
    SentMessage.ShutDown ∉ traceMessages [PoolOp.exec 5] ∧
      Message.ShutDown ∈ [Message.ShutDown] :=
  ⟨only_teardown_enqueues_shutdown.1 [PoolOp.exec 5],
   only_teardown_enqueues_shutdown.2 (fun _ => none) (fun _ => none) 0
     [Message.ShutDown] rfl⟩

/-- If every send succeeds, the send loop enqueues one `ShutDown` per
worker counted. -/
theorem sendShutDowns_all_ok (sendOk : Nat → Bool)
    (hok : ∀ i, sendOk i = true) :
    ∀ (n i : Nat),
      sendShutDowns sendOk i n = (List.replicate n SentMessage.ShutDown, true)
  | 0, _ => rfl
  | n + 1, i => by
    rw [sendShutDowns, hok i]
    simp [sendShutDowns_all_ok sendOk hok n (i + 1), List.replicate_succ]

/-- If every join succeeds, the join loop joins every worker in order. -/
theorem joinWorkers_all_ok (joinOk : Nat → Bool)
    (hok : ∀ w, joinOk w = true) :
    ∀ ws : List Nat, joinWorkers joinOk ws = (ws, true)
  | [] => rfl
  | w :: ws => by
    rw [joinWorkers, hok w]
    simp [joinWorkers_all_ok joinOk hok ws]

/-- Claim C1: when no send or join fails, dropping the `Pool` enqueues
exactly one `ShutDown` per currently-owned worker and then joins every
worker's thread, completing only after all of them are joined. -/
theorem pool_drop_teardown (sendOk joinOk : Nat → Bool) (p : Pool)
    (hs : ∀ i, sendOk i = true) (hj : ∀ w, joinOk w = true) :
    dropPool sendOk joinOk p =
      ⟨List.replicate p.workers.length SentMessage.ShutDown,
       p.workers.map Worker.id, DropResult.completed⟩ := by
  rw [dropPool, sendShutDowns_all_ok sendOk hs p.workers.length 0]
  simp [joinWorkers_all_ok joinOk hj (p.workers.map Worker.id)]

/-- Witness for `pool_drop_teardown` on a concrete two-worker pool. -/
theorem pool_drop_teardown_witness :
    dropPool (fun _ => true) (fun _ => true)
        ⟨[Worker.new 0 0 0 (fun _ => none) (fun _ => none) 0,
          Worker.new 1 0 0 (fun _ => none) (fun _ => none) 0], 0⟩ =
      ⟨[SentMessage.ShutDown, SentMessage.ShutDown], [0, 1],
       DropResult.completed⟩ := by
  have := pool_drop_teardown (fun _ => true) (fun _ => true)
    ⟨[Worker.new 0 0 0 (fun _ => none) (fun _ => none) 0,
      Worker.new 1 0 0 (fun _ => none) (fun _ => none) 0], 0⟩
    (fun _ => rfl) (fun _ => rfl)
  simpa [Worker.new] using this

/-- Claim C2: for every `size ≥ 1`, `Pool::new` succeeds and builds exactly
`size` workers whose ids are `0, 1, ..., size - 1` in order, every worker
receiving from the very queue whose sender the pool keeps; for `size = 0`
the construction always panics (`assert!(size > 0)`). -/
theorem pool_new_spec (size : Nat) (h : WmHandle) (ks : KeyBindings)
    (ms : MouseBindings) (eh : ErrorHandler) :
    (1 ≤ size → ∃ p, Pool.new size h ks ms eh = some p ∧
      p.workers.length = size ∧
      p.workers.map Worker.id = List.range size ∧
      ∀ w ∈ p.workers, w.rx = p.tx) ∧
    (size = 0 → Pool.new size h ks ms eh = none) := by
  constructor
  · intro hsize
    have hpos : size > 0 := hsize
    refine ⟨⟨(List.range size).map (fun id => Worker.new id 0 h ks ms eh), 0⟩,
      ?_, ?_, ?_, ?_⟩
    · rw [Pool.new]
      simp [hpos]
    · simp
    · simp only [List.map_map]
      exact List.map_id (List.range size)
    · intro w hw
      obtain ⟨id, _, rfl⟩ := List.mem_map.1 hw
      rfl
  · intro h0
    subst h0
    rfl

/-- Witness for `pool_new_spec`: a pool of size 3 is built with worker ids
`[0, 1, 2]` on one shared queue, and size 0 panics. -/
theorem pool_new_spec_witness :
    (∃ p, Pool.new 3 0 (fun _ => none) (fun _ => none) 0 = some p ∧
      p.workers.length = 3 ∧
      p.workers.map Worker.id = List.range 3 ∧
      ∀ w ∈ p.workers, w.rx = p.tx) ∧
    Pool.new 0 0 (fun _ => none) (fun _ => none) 0 = none :=
  ⟨(pool_new_spec 3 0 (fun _ => none) (fun _ => none) 0).1 (by decide),
   (pool_new_spec 0 0 (fun _ => none) (fun _ => none) 0).2 rfl⟩

/-- Claim C6 (divergence record): `Pool::exec` unwraps the send, so on a
closed queue submission is a panic — not a failure surfaced to the caller —
while on a live queue it enqueues a single `Job` message without blocking. -/
theorem pool_exec_panics_when_closed (p : Pool) (f : Nat) :
    Pool.exec p true f = ExecResult.panicked ∧
      Pool.exec p false f = ExecResult.sent (SentMessage.Job f) :=
  ⟨rfl, rfl⟩

/-- If the first `k` sends succeed and the `(k+1)`-st fails, the send loop
enqueues only `k` sentinels and reports the failed `unwrap`. -/
theorem sendShutDowns_fail (sendOk : Nat → Bool) :
    ∀ (k n i : Nat), k < n → (∀ j, j < k → sendOk (i + j) = true) →
      sendOk (i + k) = false →
      sendShutDowns sendOk i n = (List.replicate k SentMessage.ShutDown, false)
  | 0, 0, _, hkn, _, _ => absurd hkn (by omega)
  | 0, n + 1, i, _, _, hfail => by
    rw [sendShutDowns]
    simpa using hfail
  | k + 1, 0, _, hkn, _, _ => absurd hkn (by omega)
  | k + 1, n + 1, i, hkn, hpre, hfail => by
    have h0 : sendOk i = true := by simpa using hpre 0 (by omega)
    rw [sendShutDowns, h0]
    have ih := sendShutDowns_fail sendOk k n (i + 1) (by omega)
      (fun j hj => by
        have := hpre (j + 1) (by omega)
        simpa [Nat.add_assoc, Nat.add_comm 1 j] using this)
      (by simpa [Nat.add_assoc, Nat.add_comm 1 k] using hfail)
    simp [ih, List.replicate_succ]

/-- If every join before `w` succeeds and `w`'s join fails, the join loop
stops at `w` with only the earlier workers joined. -/
theorem joinWorkers_fail (joinOk : Nat → Bool) :
    ∀ (l : List Nat) (w : Nat) (r : List Nat),
      (∀ x ∈ l, joinOk x = true) → joinOk w = false →
      joinWorkers joinOk (l ++ w :: r) = (l, false)
  | [], w, r, _, hw => by
    rw [List.nil_append, joinWorkers, hw]
    simp
  | x :: l, w, r, hl, hw => by
    have hx : joinOk x = true := hl x (List.mem_cons_self x l)
    rw [List.cons_append, joinWorkers, hx]
    have ih := joinWorkers_fail joinOk l w r
      (fun y hy => hl y (List.mem_cons_of_mem x hy)) hw
    simp [ih]

/-- Claim C10: `Drop` unwraps every sentinel send and every join.  If the
`(k+1)`-st send fails (queue disconnected), drop panics having enqueued
only `k` sentinels and joins nobody; if all sends succeed but some worker's
thread panicked, drop panics after joining exactly the workers before it,
abandoning teardown of the remaining ones. -/
theorem pool_drop_unwrap_panics :
    (∀ (sendOk joinOk : Nat → Bool) (p : Pool) (k : Nat),
      k < p.workers.length → (∀ j, j < k → sendOk j = true) →
      sendOk k = false →
      dropPool sendOk joinOk p =
        ⟨List.replicate k SentMessage.ShutDown, [], DropResult.panicked⟩) ∧
    (∀ (sendOk joinOk : Nat → Bool) (p : Pool) (l : List Nat) (w : Nat)
        (r : List Nat),
      (∀ i, sendOk i = true) →
      p.workers.map Worker.id = l ++ w :: r →
      (∀ x ∈ l, joinOk x = true) → joinOk w = false →
      dropPool sendOk joinOk p =
        ⟨List.replicate p.workers.length SentMessage.ShutDown, l,
         DropResult.panicked⟩) := by
  constructor
  · intro sendOk joinOk p k hk hpre hfail
    have hs := sendShutDowns_fail sendOk k p.workers.length 0 hk
      (fun j hj => by simpa using hpre j hj) (by simpa using hfail)
    rw [dropPool, hs]
    simp
  · intro sendOk joinOk p l w r hsend hids hl hw
    rw [dropPool, sendShutDowns_all_ok sendOk hsend p.workers.length 0]
    have hj := joinWorkers_fail joinOk l w r hl hw
    rw [hids] at *
    simp [hj]

/-- Witness for `pool_drop_unwrap_panics` on concrete one-worker pools:
a failing first send, and a failing join of worker 0. -/
theorem pool_drop_unwrap_panics_witness :
    dropPool (fun _ => false) (fun _ => true)
        ⟨[Worker.new 0 0 0 (fun _ => none) (fun _ => none) 0], 0⟩ =
      ⟨[], [], DropResult.panicked⟩ ∧
    dropPool (fun _ => true) (fun _ => false)
        ⟨[Worker.new 0 0 0 (fun _ => none) (fun _ => none) 0], 0⟩ =
      ⟨[SentMessage.ShutDown], [], DropResult.panicked⟩ := by
  constructor
  · have := pool_drop_unwrap_panics.1 (fun _ => false) (fun _ => true)
      ⟨[Worker.new 0 0 0 (fun _ => none) (fun _ => none) 0], 0⟩ 0
      (by simp [Worker.new]) (fun j hj => absurd hj (by omega)) rfl
    simpa using this
  · have := pool_drop_unwrap_panics.2 (fun _ => true) (fun _ => false)
      ⟨[Worker.new 0 0 0 (fun _ => none) (fun _ => none) 0], 0⟩ [] 0 []
      (fun _ => rfl) (by simp [Worker.new]) (by simp) rfl
    simpa [Worker.new] using this
